import Mathlib

/-!
# Verification of the automaker provider-routing core

Shallow embedding, in Lean 4, of the provider abstraction and
fallback-routing core of the `automaker` repository:

* `libs/types/src/provider-profile.ts` — profile data model, SSRF guard,
  model mapper;
* `apps/server/src/providers/provider-factory.ts` — provider registry,
  fallback-chain construction, fallback executor;
* `apps/server/src/providers/anthropic-proxy-provider.ts` — environment
  allowlist;
* `apps/server/src/providers/openai-proxy-provider.ts` — SSE stream
  decoding for the chat-completions wire format;
* the provider-profile service — profile CRUD and connection-test
  classification.

External platform collaborators (the WHATWG `URL` parser, `fetch`, the
system clock, `randomUUID`) are modelled by explicit parameters: every
function that the TypeScript source feeds from one of them takes the
collaborator's answer as an argument, and the theorems quantify over it.

Machine numbers (TypeScript `number`) appear only as priorities, HTTP
status codes and timeouts, all far from any floating-point edge; they are
modelled as `Int`/`Nat`.
-/


/-! ## String primitives

`String.toLower`, `String.startsWith`, `String.splitOn`, `String.take` and
`String.drop` are implemented in core Lean with well-founded position
loops that the kernel cannot unfold; the definitions below compute the
same functions by structural recursion over the character list, so that
witnesses evaluate by `decide`/`rfl`.  Single-character separators suffice
for every `split` in the source (`'.'` and `'\n'`). -/

/-- `s.toLowerCase()` (ASCII case folding, as `String.toLower`). -/
def strLower (s : String) : String :=
  ⟨s.data.map Char.toLower⟩

/-- `s.startsWith(pre)`. -/
def strStartsWith (s pre : String) : Bool :=
  pre.data.isPrefixOf s.data

/-- `s.split(sep)` for a one-character separator, JavaScript semantics
(`"".split` gives `[""]`; adjacent separators give empty fields). -/
def splitOnCharAux (sep : Char) : List Char → List (List Char)
  | [] => [[]]
  | c :: cs =>
      match splitOnCharAux sep cs with
      | [] => [[]]
      | g :: gs => if c = sep then [] :: g :: gs else (c :: g) :: gs

/-- String-level wrapper of `splitOnCharAux`. -/
def strSplitOnChar (s : String) (sep : Char) : List String :=
  (splitOnCharAux sep s.data).map String.mk

/-- `s.slice(0, n)` / `String.take`. -/
def strTake (s : String) (n : Nat) : String :=
  ⟨s.data.take n⟩

/-- `s.slice(n)` / `String.drop`. -/
def strDrop (s : String) (n : Nat) : String :=
  ⟨s.data.drop n⟩

/-! ## Data model (`libs/types/src/provider-profile.ts`) -/

/-- `ProviderProfileType` — `'anthropic-compatible' | 'openai-compatible'`. -/
inductive ProviderProfileType where
  | anthropicCompatible
  | openaiCompatible
deriving DecidableEq, Repr

/-- `ModelMappingEntry` — `{localModel, remoteModel}`. -/
structure ModelMappingEntry where
  localModel : String
  remoteModel : String
deriving DecidableEq, Repr

/-- `ConnectionTestResult` — `{success, responseTimeMs?, error?, availableModels?, testedAt}`. -/
structure ConnectionTestResult where
  success : Bool
  responseTimeMs : Option Int := none
  error : Option String := none
  availableModels : Option (List String) := none
  testedAt : String
deriving DecidableEq, Repr

/-- `ProviderProfile` — a configured remote endpoint (optional TS fields
become `Option`). -/
structure ProviderProfile where
  id : String
  name : String
  type : ProviderProfileType
  baseUrl : String
  apiKey : String
  modelMapping : List ModelMappingEntry
  isActive : Bool
  priority : Int
  timeout : Option Int := none
  description : Option String := none
  customCaCert : Option String := none
  allowInternalUrls : Option Bool := none
  rateLimitRpm : Option Int := none
  lastConnectionTest : Option ConnectionTestResult := none
  createdAt : String
  updatedAt : String
deriving DecidableEq, Repr

/-- `SsrfValidationResult` — `{safe, reason?, bypassedByUser?}`. -/
structure SsrfValidationResult where
  safe : Bool
  reason : Option String := none
  bypassedByUser : Option Bool := none
deriving DecidableEq, Repr

/-- `DEFAULT_PROVIDER_TIMEOUT = 30000`. -/
def DEFAULT_PROVIDER_TIMEOUT : Int := 30000

/-! ## SSRF guard (`validateBaseUrlSsrf`)

The TypeScript function starts with `new URL(url)` — the platform WHATWG
parser, external to the repository.  We model its observable output as
`URLParts` (the two components the function reads) and parameterise
`validateBaseUrlSsrf` by an arbitrary parse function
`String → Option URLParts`, `none` standing for the constructor throwing.
-/

/-- The two components of a parsed URL that `validateBaseUrlSsrf` reads:
`parsed.protocol` (e.g. `"http:"`) and `parsed.hostname`. -/
structure URLParts where
  protocol : String
  hostname : String
deriving DecidableEq, Repr

/-- `\d+`: a non-empty string of decimal digits. -/
def isDigits (s : String) : Bool :=
  s ≠ "" && s.toList.all Char.isDigit

/-- The second-octet alternation `(1[6-9]|2\d|3[01])` of the
`172.16.0.0/12` pattern, as the exact set of two-character strings it
matches. -/
def is172SecondOctet (s : String) : Bool :=
  ["16", "17", "18", "19", "20", "21", "22", "23", "24", "25", "26", "27",
    "28", "29", "30", "31"].contains s

/-- An anchored regex `^a\.b\.\d+\.\d+$` with literal first octets: the
hostname splits on `"."` into exactly four components, the leading ones
equal to the given literals, the rest non-empty digit runs. -/
def matchesOctets (h : String) (first : String) (second : Option String) : Bool :=
  match strSplitOnChar h '.' with
  | [a, b, c, d] =>
      a == first &&
        (match second with
          | some s => b == s
          | none => isDigits b) &&
        isDigits c && isDigits d
  | _ => false

/-- The `172.(1[6-9]|2\d|3[01]).\d+.\d+` private-range pattern. -/
def matches172Private (h : String) : Bool :=
  match strSplitOnChar h '.' with
  | [a, b, c, d] => a == "172" && is172SecondOctet b && isDigits c && isDigits d
  | _ => false

/-- The ordered `internalPatterns` list of `validateBaseUrlSsrf`, collapsed
to one boolean: the loop returns the same result for every matching
pattern, so only "some pattern matches" is observable.  The argument is the
already lower-cased hostname (the source lower-cases before testing, making
the `/i` flags redundant). -/
def isInternalHostname (h : String) : Bool :=
  h == "localhost" ||                                     -- /^localhost$/i
  matchesOctets h "127" none ||                           -- /^127\.\d+\.\d+\.\d+$/
  ["::1", "[::1", "::1]", "[::1]"].contains h ||          -- /^\[?::1\]?$/
  matchesOctets h "10" none ||                            -- /^10\.\d+\.\d+\.\d+$/
  matches172Private h ||                                  -- /^172\.(1[6-9]|2\d|3[01])\.\d+\.\d+$/
  matchesOctets h "192" (some "168") ||                   -- /^192\.168\.\d+\.\d+$/
  matchesOctets h "169" (some "254") ||                   -- /^169\.254\.\d+\.\d+$/
  h == "0.0.0.0" ||                                       -- /^0\.0\.0\.0$/
  strStartsWith h "fe80:" || strStartsWith h "[fe80:" ||        -- /^\[?fe80:/i
  strStartsWith h "fc00:" || strStartsWith h "[fc00:" ||        -- /^\[?fc00:/i
  strStartsWith h "fd00:" || strStartsWith h "[fd00:"           -- /^\[?fd00:/i

/-- The body of `validateBaseUrlSsrf` after a successful `new URL(url)`:
protocol check, then the internal-pattern scan of the lower-cased
hostname. -/
def validateParsed (parsed : URLParts) (allowInternalUrls : Bool) :
    SsrfValidationResult :=
  if !(["http:", "https:"].contains parsed.protocol) then
    { safe := false, reason := some "Only HTTP and HTTPS protocols are allowed" }
  else
    if isInternalHostname (strLower parsed.hostname) then
      if allowInternalUrls then
        { safe := true, bypassedByUser := some true }
      else
        { safe := false,
          reason := some ("Internal/private addresses are not allowed: " ++
            strLower parsed.hostname ++
            ". Enable \"Allow Internal URLs\" to bypass this check.") }
    else
      { safe := true }

/-- `validateBaseUrlSsrf(url, allowInternalUrls = false)` proper: the
`try { new URL(url) } catch` shell around `validateParsed`. -/
def validateBaseUrlSsrf (parse : String → Option URLParts)
    (url : String) (allowInternalUrls : Bool := false) : SsrfValidationResult :=
  match parse url with
  | none =>
      { safe := false, reason := some "Invalid URL" }
  | some parsed => validateParsed parsed allowInternalUrls

/-! ## Model mapper (`mapModelToRemote` / `mapModelFromRemote`) -/

/-- `mapModelToRemote(localModel, profile)`: case-insensitive first-match
scan of `profile.modelMapping` on `localModel`; unmapped names pass through
unchanged. -/
def mapModelToRemote (localModel : String) (profile : ProviderProfile) : String :=
  match profile.modelMapping.find?
      (fun m => strLower m.localModel == strLower localModel) with
  | some m => m.remoteModel
  | none => localModel

/-- `mapModelFromRemote(remoteModel, profile)`: symmetric reverse lookup. -/
def mapModelFromRemote (remoteModel : String) (profile : ProviderProfile) : String :=
  match profile.modelMapping.find?
      (fun m => strLower m.remoteModel == strLower remoteModel) with
  | some m => m.localModel
  | none => remoteModel

/-- Helper used to state claims about mapping ambiguity: the number of
entries whose `localModel` is literally `m`. -/
def localModelCount (p : ProviderProfile) (m : String) : Nat :=
  (p.modelMapping.filter (fun e => e.localModel == m)).length

/-! ## Profile service (`ProviderProfileService`)

The service reads and writes the settings store
(`getGlobalSettings`/`updateGlobalSettings`).  Pure model: each operation
takes the stored profile list and returns `Except` — `.ok` carries both the
operation's return value and the exact list handed to
`updateGlobalSettings`; `.error` means the method threw, which in the
source happens strictly before any `updateGlobalSettings` call, so an error
leaves the store untouched.  `randomUUID()` and `new Date().toISOString()`
are platform collaborators, passed in as `freshId`/`now`.
-/

/-- `CreateProviderProfileInput`. -/
structure CreateProviderProfileInput where
  name : String
  type : ProviderProfileType
  baseUrl : String
  apiKey : String
  modelMapping : Option (List ModelMappingEntry) := none
  isActive : Option Bool := none
  priority : Option Int := none
  timeout : Option Int := none
  description : Option String := none
  customCaCert : Option String := none
  allowInternalUrls : Option Bool := none
  rateLimitRpm : Option Int := none
deriving DecidableEq, Repr

/-- `UpdateProviderProfileInput`. -/
structure UpdateProviderProfileInput where
  id : String
  name : Option String := none
  type : Option ProviderProfileType := none
  baseUrl : Option String := none
  apiKey : Option String := none
  modelMapping : Option (List ModelMappingEntry) := none
  isActive : Option Bool := none
  priority : Option Int := none
  timeout : Option Int := none
  description : Option String := none
  customCaCert : Option String := none
  allowInternalUrls : Option Bool := none
  rateLimitRpm : Option Int := none
deriving DecidableEq, Repr

/-- `Math.max(...profiles.map(p => p.priority))` for a non-empty list,
`0` for the empty one (the source guards with `profiles.length > 0`). -/
def maxExistingPriority (profiles : List ProviderProfile) : Int :=
  match profiles.map (fun p => p.priority) with
  | [] => 0
  | x :: xs => xs.foldl max x

/-- `ProviderProfileService.createProfile(input)`.  Validates the base URL
first (throwing — `.error` — before any store access), then appends one
freshly built profile to the stored list.  `.ok (profile, written)` pairs
the returned profile with the `providerProfiles` array passed to
`updateGlobalSettings`. -/
def createProfile (parse : String → Option URLParts)
    (freshId now : String)
    (input : CreateProviderProfileInput)
    (profiles : List ProviderProfile) :
    Except String (ProviderProfile × List ProviderProfile) :=
  let ssrfResult := validateBaseUrlSsrf parse input.baseUrl
    (input.allowInternalUrls.getD false)
  if !ssrfResult.safe then
    .error ("Invalid base URL: " ++ (ssrfResult.reason.getD ""))
  else
    let maxPriority := maxExistingPriority profiles
    let profile : ProviderProfile :=
      { id := freshId
        name := input.name
        type := input.type
        baseUrl := input.baseUrl
        apiKey := input.apiKey
        modelMapping := input.modelMapping.getD []
        isActive := input.isActive.getD true
        priority := input.priority.getD (maxPriority + 1)
        timeout := some (input.timeout.getD DEFAULT_PROVIDER_TIMEOUT)
        description := input.description
        customCaCert := input.customCaCert
        allowInternalUrls := some (input.allowInternalUrls.getD false)
        rateLimitRpm := some (input.rateLimitRpm.getD 0)
        createdAt := now
        updatedAt := now }
    .ok (profile, profiles ++ [profile])

/-- Outcome of `updateProfile`, instrumented with a ghost flag recording
whether the `if (input.baseUrl && input.baseUrl !== existing.baseUrl)`
validation branch was entered (purely observational; the data flow is
untouched). -/
structure UpdateOutcome where
  ssrfChecked : Bool
  result : Except String (ProviderProfile × List ProviderProfile)
deriving Repr

/-- The guard of the SSRF-validation branch in `updateProfile`:
`input.baseUrl && input.baseUrl !== existing.baseUrl` — JavaScript
truthiness makes the empty string falsy. -/
def updateNeedsSsrfCheck (input : UpdateProviderProfileInput)
    (existing : ProviderProfile) : Bool :=
  match input.baseUrl with
  | some b => b ≠ "" && b ≠ existing.baseUrl
  | none => false

/-- `ProviderProfileService.updateProfile(input)`.  Not-found ids throw
before any validation or write; a supplied, truthy, changed `baseUrl` is
SSRF-validated (with `input.allowInternalUrls ?? existing.allowInternalUrls`);
on success the profile at the id's position is replaced field-by-field with
`input.x ?? existing.x`. -/
def updateProfile (parse : String → Option URLParts) (now : String)
    (input : UpdateProviderProfileInput)
    (profiles : List ProviderProfile) : UpdateOutcome :=
  match profiles.find? (fun p => p.id == input.id) with
  | none =>
      { ssrfChecked := false
        result := .error ("Provider profile not found: " ++ input.id) }
  | some existing =>
      if updateNeedsSsrfCheck input existing then
        let allowInternal :=
          (input.allowInternalUrls.getD (existing.allowInternalUrls.getD false))
        let ssrfResult := validateBaseUrlSsrf parse (input.baseUrl.getD "") allowInternal
        if !ssrfResult.safe then
          { ssrfChecked := true
            result := .error ("Invalid base URL: " ++ (ssrfResult.reason.getD "")) }
        else
          { ssrfChecked := true
            result := .ok (applyUpdate input existing now,
              writeBack profiles input.id (applyUpdate input existing now)) }
      else
        { ssrfChecked := false
          result := .ok (applyUpdate input existing now,
            writeBack profiles input.id (applyUpdate input existing now)) }
where
  /-- The `const updated = { ...existing, x: input.x ?? existing.x, ... }`
  object literal. -/
  applyUpdate (input : UpdateProviderProfileInput) (existing : ProviderProfile)
      (now : String) : ProviderProfile :=
    { existing with
      name := input.name.getD existing.name
      type := input.type.getD existing.type
      baseUrl := input.baseUrl.getD existing.baseUrl
      apiKey := input.apiKey.getD existing.apiKey
      modelMapping := input.modelMapping.getD existing.modelMapping
      isActive := input.isActive.getD existing.isActive
      priority := input.priority.getD existing.priority
      timeout := input.timeout.orElse (fun _ => existing.timeout)
      description := input.description.orElse (fun _ => existing.description)
      customCaCert := input.customCaCert.orElse (fun _ => existing.customCaCert)
      allowInternalUrls := input.allowInternalUrls.orElse (fun _ => existing.allowInternalUrls)
      rateLimitRpm := input.rateLimitRpm.orElse (fun _ => existing.rateLimitRpm)
      updatedAt := now }
  /-- `profiles[index] = updated` followed by the store write: replace the
  (first) profile carrying the id. -/
  writeBack (profiles : List ProviderProfile) (id : String)
      (updated : ProviderProfile) : List ProviderProfile :=
    profiles.map (fun p => if p.id == id then updated else p)

/-! ## Connection testing (`ProviderProfileService.testProfileConnection`)

The network round-trip is the `fetch` collaborator.  Its observable inputs
to the classification logic are the HTTP status code, the status text, the
response body text, and — for the OpenAI branch on a 2xx — the parsed
`{data: [{id}]}` model list (`none` when the JSON body does not parse to
that shape).  Wall-clock values (`responseTimeMs`, `testedAt`) are likewise
passed through.  `response.ok` is the WHATWG fetch definition:
status in [200, 299]. -/

/-- `response.ok`. -/
def httpOk (status : Nat) : Bool :=
  200 ≤ status && status ≤ 299

/-- The status-classification core of `testProfileConnection`, one branch
per profile type, mirroring the source line by line.  Returns the
`ConnectionTestResult` the method returns for a completed HTTP exchange
(the `catch` paths — abort, network error — are reached only when `fetch`
throws, i.e. when there is no status to classify). -/
def testProfileConnectionClassify (type : ProviderProfileType) (status : Nat)
    (statusText : String) (errorText : String)
    (modelsBody : Option (List String))
    (responseTimeMs : Int) (testedAt : String) : ConnectionTestResult :=
  match type with
  | .anthropicCompatible =>
      if status == 401 || status == 403 then
        { success := false
          error := some "Authentication failed. Please check your API key."
          responseTimeMs := some responseTimeMs
          testedAt := testedAt }
      else if httpOk status || status == 400 || status == 404 then
        { success := true
          responseTimeMs := some responseTimeMs
          testedAt := testedAt }
      else
        unexpectedResponse status statusText errorText responseTimeMs testedAt
  | .openaiCompatible =>
      if status == 401 || status == 403 then
        { success := false
          error := some "Authentication failed. Please check your API key."
          responseTimeMs := some responseTimeMs
          testedAt := testedAt }
      else if httpOk status then
        { success := true
          responseTimeMs := some responseTimeMs
          availableModels := modelsBody
          testedAt := testedAt }
      else
        unexpectedResponse status statusText errorText responseTimeMs testedAt
where
  /-- The shared `Unexpected response: ...` tail of both branches. -/
  unexpectedResponse (status : Nat) (statusText errorText : String)
      (responseTimeMs : Int) (testedAt : String) : ConnectionTestResult :=
    { success := false
      error := some ("Unexpected response: " ++ toString status ++ " " ++ statusText ++
        (if errorText ≠ "" then " - " ++ strTake errorText 200 else ""))
      responseTimeMs := some responseTimeMs
      testedAt := testedAt }

/-! ## Provider factory (`apps/server/src/providers/provider-factory.ts`) -/

/-- The closed set of provider instances the factory can construct:
profile-backed proxy providers (`createProviderFromProfile`) and the
registry's standard providers (`ClaudeProvider`, `CursorProvider`, and any
future registration), the latter identified by the opaque instance their
factory closure returns. -/
inductive BaseProvider where
  | anthropicProxy (profile : ProviderProfile)
  | openaiProxy (profile : ProviderProfile)
  | standard (name : String)
deriving DecidableEq, Repr

/-- `ProviderRegistration` — `{factory, aliases?, canHandleModel?, priority?}`. -/
structure ProviderRegistration where
  factory : BaseProvider
  aliases : Option (List String) := none
  canHandleModel : Option (String → Bool) := none
  priority : Option Int := none

/-- The process-wide registry: a JavaScript `Map`, i.e. an insertion-ordered
association list with distinct keys (keys are lower-cased by
`registerProvider`). -/
def ProviderRegistry := List (String × ProviderRegistration)

/-- `(b.priority ?? 0)` — the sort key of a registration. -/
def registrationPriority (r : ProviderRegistration) : Int :=
  r.priority.getD 0

/-- One step of a stable descending insertion sort on the priority key:
the element is placed before the first strictly-smaller entry, i.e. after
every earlier entry of equal or higher priority (ties keep their original
relative order, as `Array.prototype.sort` guarantees). -/
def insertPrioDesc (x : String × ProviderRegistration) :
    List (String × ProviderRegistration) → List (String × ProviderRegistration)
  | [] => [x]
  | y :: ys =>
      if registrationPriority y.2 < registrationPriority x.2 then
        x :: y :: ys
      else
        y :: insertPrioDesc x ys

/-- `Array.from(providerRegistry.entries()).sort(([, a], [, b]) =>
(b.priority ?? 0) - (a.priority ?? 0))`: a stable sort by priority,
descending. -/
def sortByPriorityDesc (registry : ProviderRegistry) :
    List (String × ProviderRegistration) :=
  registry.foldl (fun acc x => insertPrioDesc x acc) []

/-- `reg.canHandleModel?.(lowerModel)` cast to the `if` condition: an absent
predicate is `undefined`, hence falsy. -/
def canHandle (r : ProviderRegistration) (lowerModel : String) : Bool :=
  match r.canHandleModel with
  | some f => f lowerModel
  | none => false

/-- `ProviderFactory.getProviderNameForModel(model)`: lower-case the model
id, sort registrations by priority descending, scan for a
`canHandleModel` hit, then for a `"<name>-"` prefix of the *lower-cased*
model id, then default to `"claude"`. -/
def getProviderNameForModel (registry : ProviderRegistry) (model : String) : String :=
  let lowerModel := strLower model
  let registrations := sortByPriorityDesc registry
  match registrations.find? (fun nr => canHandle nr.2 lowerModel) with
  | some (name, _) => name
  | none =>
      match registrations.find? (fun nr => strStartsWith lowerModel (nr.1 ++ "-")) with
      | some (name, _) => name
      | none => "claude"

/-- `ProviderFactory.getProviderByName(name)`: direct `Map` lookup on the
lower-cased name, then a scan of the `aliases` lists; `none` is the
source's `null`. -/
def getProviderByName (registry : ProviderRegistry) (name : String) :
    Option BaseProvider :=
  let lowerName := strLower name
  match registry.find? (fun nr => nr.1 == lowerName) with
  | some (_, reg) => some reg.factory
  | none =>
      match registry.find? (fun nr => (nr.2.aliases.getD []).contains lowerName) with
      | some (_, reg) => some reg.factory
      | none => none

/-- `ProviderFactory.getProviderForModel(modelId)`: resolve the name, fetch
the provider, fall back to the `"claude"` registration's factory; `none`
models the final `throw new Error` when even that is missing. -/
def getProviderForModel (registry : ProviderRegistry) (modelId : String) :
    Option BaseProvider :=
  let providerName := getProviderNameForModel registry modelId
  match getProviderByName registry providerName with
  | some provider => some provider
  | none =>
      match registry.find? (fun nr => nr.1 == "claude") with
      | some (_, reg) => some reg.factory
      | none => none

/-- `ProviderFactory.createProviderFromProfile(profile)`: the profile type
selects the proxy provider class (the `throw` arm is unreachable — the
type is a two-value enum). -/
def createProviderFromProfile (profile : ProviderProfile) : BaseProvider :=
  match profile.type with
  | .anthropicCompatible => .anthropicProxy profile
  | .openaiCompatible => .openaiProxy profile

/-- The Claude-family test of `getFallbackProviders` (and of
`getProviderForModelWithProfiles`):
`lowerModel.startsWith('claude-') || ['opus','sonnet','haiku'].some(n => lowerModel.includes(n))`,
on the lower-cased model id. -/
def isClaudeFamily (lowerModel : String) : Bool :=
  strStartsWith lowerModel "claude-" ||
    ["opus", "sonnet", "haiku"].any
      (fun n => lowerModel.toList.tails.any (fun t => n.toList.isPrefixOf t))

/-- The OpenAI-family test:
`lowerModel.startsWith('gpt-') || lowerModel.startsWith('o1') || lowerModel.startsWith('o3')`. -/
def isOpenAIFamily (lowerModel : String) : Bool :=
  strStartsWith lowerModel "gpt-" || strStartsWith lowerModel "o1" ||
    strStartsWith lowerModel "o3"

/-- `ProviderFactory.getFallbackProviders(modelId, profiles)`: classify the
model id into a profile-type affinity, append one provider per active
profile of that type in list order, then always append the standard
provider from registry resolution.  `none` propagates the (practically
unreachable) throw of `getProviderForModel` on a registry without
`"claude"`. -/
def getFallbackProviders (registry : ProviderRegistry) (modelId : String)
    (profiles : List ProviderProfile) : Option (List BaseProvider) :=
  let lowerModel := strLower modelId
  let profileType : Option ProviderProfileType :=
    if isClaudeFamily lowerModel then
      some .anthropicCompatible
    else if isOpenAIFamily lowerModel then
      some .openaiCompatible
    else
      none
  let profileProviders :=
    match profileType with
    | some t =>
        (profiles.filter (fun p => p.type == t && p.isActive)).map
          createProviderFromProfile
    | none => []
  match getProviderForModel registry modelId with
  | some standardProvider => some (profileProviders ++ [standardProvider])
  | none => none

/-! ## Fallback executor (`ProviderFactory.executeWithFallback`)

The `executor` callback is an arbitrary operation returning a result or
throwing; pure model `BaseProvider → Except E T`.  The loop's observable
behaviour is the sequence of `logger.warn` failure records plus the
outcome; `.error none` is the synthesized `new Error('All providers
failed…')` thrown when `lastError` is still `null` (empty chain). -/

/-- The `for` loop of `executeWithFallback`: `log` accumulates one entry
per failed attempt, `lastError` mirrors the mutable variable. -/
def fallbackLoop {E T : Type} (exec : BaseProvider → Except E T) :
    List BaseProvider → List E → Option E → List E × Except (Option E) T
  | [], log, lastError => (log, .error lastError)
  | p :: ps, log, _lastError =>
      match exec p with
      | .ok t => (log, .ok t)
      | .error e => fallbackLoop exec ps (log ++ [e]) (some e)

/-- `ProviderFactory.executeWithFallback(modelId, profiles, executor)`:
build the chain, try candidates strictly in order.  The outer `Option` is
the chain-construction throw; the pair is (failure log, outcome). -/
def executeWithFallback {E T : Type} (registry : ProviderRegistry)
    (modelId : String) (profiles : List ProviderProfile)
    (exec : BaseProvider → Except E T) :
    Option (List E × Except (Option E) T) :=
  match getFallbackProviders registry modelId profiles with
  | none => none
  | some providers => some (fallbackLoop exec providers [] none)

/-! ## Anthropic proxy provider environment
(`anthropic-proxy-provider.ts`, `ALLOWED_ENV_VARS` / `buildEnv`)

`process.env` is the platform collaborator: a partial map
`String → Option String`.  `buildEnv` constructs a fresh record — modelled
as the association list of its insertion-ordered own properties — copying
only the truthy allowlisted variables (`if (process.env[key])`: the empty
string is falsy and is skipped) and then setting the two overrides. -/

/-- `ALLOWED_ENV_VARS`. -/
def ALLOWED_ENV_VARS : List String :=
  ["PATH", "HOME", "SHELL", "TERM", "USER", "LANG", "LC_ALL"]

/-- `AnthropicProxyProvider.buildEnv()`. -/
def buildEnv (processEnv : String → Option String) (profile : ProviderProfile) :
    List (String × String) :=
  (ALLOWED_ENV_VARS.filterMap (fun key =>
      match processEnv key with
      | some v => if v ≠ "" then some (key, v) else none
      | none => none))
    ++ [("ANTHROPIC_BASE_URL", profile.baseUrl),
        ("ANTHROPIC_API_KEY", profile.apiKey)]

/-! ## OpenAI proxy provider stream decoding
(`openai-proxy-provider.ts`, `executeQuery` lines 184–296)

The response body is the `fetch` collaborator; its observable input to the
decode loop is the sequence of text chunks produced by `reader.read()` /
`TextDecoder`.  `JSON.parse` is embedded as a standard JSON parser
(`jsonParse`) covering the grammar the wire format uses — objects, arrays,
strings with simple escapes, integers, booleans, `null`; data lines whose
payload falls outside it (e.g. fractional numbers) take the same
logged-and-skipped path as a `JSON.parse` throw.  Parsed payloads are then
read through the shape of the declared `OpenAIStreamChunk` interface.
`openai-${Date.now()}` is the clock collaborator, passed in as
`sessionId`. -/

/-- JSON values. -/
inductive Json where
  | null
  | bool (b : Bool)
  | num (n : Int)
  | str (s : String)
  | arr (elems : List Json)
  | obj (fields : List (String × Json))

/-- JSON insignificant whitespace. -/
def jsonWs (c : Char) : Bool :=
  c = ' ' || c = '\t' || c = '\n' || c = '\r'

/-- Drop leading JSON whitespace. -/
def skipWs (cs : List Char) : List Char :=
  cs.dropWhile jsonWs

/-- Decode one JSON string-escape character. -/
def unescapeChar (e : Char) : Option Char :=
  if e = '"' then some '"'
  else if e = '\\' then some '\\'
  else if e = '/' then some '/'
  else if e = 'n' then some '\n'
  else if e = 't' then some '\t'
  else if e = 'r' then some '\r'
  else if e = 'b' then some (Char.ofNat 8)
  else if e = 'f' then some (Char.ofNat 12)
  else none

/-- Parse the body of a JSON string (the opening quote already consumed). -/
def parseStringBody : List Char → List Char → Option (String × List Char)
  | [], _ => none
  | c :: rest, acc =>
      if c = '"' then
        some (String.mk acc.reverse, rest)
      else if c = '\\' then
        match rest with
        | [] => none
        | e :: rest2 =>
            match unescapeChar e with
            | some d => parseStringBody rest2 (d :: acc)
            | none => none
      else
        parseStringBody rest (c :: acc)

/-- Digit run to a natural number. -/
def natOfDigits (ds : List Char) : Nat :=
  ds.foldl (fun a c => a * 10 + (c.toNat - 48)) 0

/-- Parse a JSON integer (optional minus, one or more digits). -/
def parseIntLit (cs : List Char) : Option (Int × List Char) :=
  let core := fun (cs : List Char) =>
    let ds := cs.takeWhile Char.isDigit
    let rest := cs.dropWhile Char.isDigit
    if ds.isEmpty then none else some ((natOfDigits ds : Int), rest)
  match cs with
  | '-' :: rest => (core rest).map (fun p => (-p.1, p.2))
  | _ => core cs

mutual

/-- Parse one JSON value (fuel-bounded recursive descent). -/
def parseValue : Nat → List Char → Option (Json × List Char)
  | 0, _ => none
  | fuel + 1, cs =>
      match skipWs cs with
      | [] => none
      | c :: rest =>
          if c = '{' then
            parseFields fuel (skipWs rest) |>.map (fun p => (Json.obj p.1, p.2))
          else if c = '[' then
            parseElems fuel (skipWs rest) |>.map (fun p => (Json.arr p.1, p.2))
          else if c = '"' then
            (parseStringBody rest []).map (fun p => (Json.str p.1, p.2))
          else if c = 't' then
            if ['r', 'u', 'e'].isPrefixOf rest then
              some (Json.bool true, rest.drop 3)
            else none
          else if c = 'f' then
            if ['a', 'l', 's', 'e'].isPrefixOf rest then
              some (Json.bool false, rest.drop 4)
            else none
          else if c = 'n' then
            if ['u', 'l', 'l'].isPrefixOf rest then
              some (Json.null, rest.drop 3)
            else none
          else
            (parseIntLit (c :: rest)).map (fun p => (Json.num p.1, p.2))

/-- Parse array elements; the cursor is just past `[` (whitespace skipped). -/
def parseElems : Nat → List Char → Option (List Json × List Char)
  | 0, _ => none
  | fuel + 1, cs =>
      match cs with
      | ']' :: rest => some ([], rest)
      | _ =>
          match parseValue fuel cs with
          | none => none
          | some (v, cs1) =>
              match skipWs cs1 with
              | ',' :: cs2 =>
                  (parseElems fuel (skipWs cs2)).map (fun p => (v :: p.1, p.2))
              | ']' :: cs2 => some ([v], cs2)
              | _ => none

/-- Parse object members; the cursor is just past `{` (whitespace skipped). -/
def parseFields : Nat → List Char → Option (List (String × Json) × List Char)
  | 0, _ => none
  | fuel + 1, cs =>
      match cs with
      | '}' :: rest => some ([], rest)
      | '"' :: rest =>
          match parseStringBody rest [] with
          | none => none
          | some (key, cs1) =>
              match skipWs cs1 with
              | ':' :: cs2 =>
                  match parseValue fuel (skipWs cs2) with
                  | none => none
                  | some (v, cs3) =>
                      match skipWs cs3 with
                      | ',' :: cs4 =>
                          (parseFields fuel (skipWs cs4)).map
                            (fun p => ((key, v) :: p.1, p.2))
                      | '}' :: cs4 => some ([(key, v)], cs4)
                      | _ => none
              | _ => none
      | _ => none

end

/-- `JSON.parse` on the JSON fragment described above: parse one value and
require only trailing whitespace. -/
def jsonParse (s : String) : Option Json :=
  let cs := s.toList
  match parseValue (2 * cs.length + 2) cs with
  | some (j, rest) => if (skipWs rest).isEmpty then some j else none
  | none => none

/-- Object-field projection (`undefined` for a missing key or a non-object
base). -/
def Json.getField? (j : Json) (k : String) : Option Json :=
  match j with
  | .obj fields => (fields.find? (fun f => f.1 == k)).map (fun f => f.2)
  | _ => none

/-- String projection. -/
def Json.asString? (j : Json) : Option String :=
  match j with
  | .str s => some s
  | _ => none

/-- Integer projection. -/
def Json.asInt? (j : Json) : Option Int :=
  match j with
  | .num n => some n
  | _ => none

/-- Array projection. -/
def Json.asArray? (j : Json) : Option (List Json) :=
  match j with
  | .arr xs => some xs
  | _ => none

/-- A `delta.tool_calls[i]` element per the `OpenAIStreamChunk` interface. -/
structure ToolCallDelta where
  index : Int
  callId : Option String
  functionName : Option String
  functionArguments : Option String

/-- A `choices[i].delta` per the interface (`content?: string | null`). -/
structure ChoiceDelta where
  content : Option String
  toolCalls : Option (List ToolCallDelta)

/-- A `choices[i]` per the interface (`finish_reason: string | null`). -/
structure ChunkChoice where
  index : Int
  delta : ChoiceDelta
  finishReason : Option String

/-- The `OpenAIStreamChunk` interface. -/
structure OpenAIStreamChunk where
  id : String
  object : String
  created : Int
  model : String
  choices : List ChunkChoice

/-- Read an optional string field: absent and `null` both become `none`
(both are falsy at every use site), a present string becomes `some`. -/
def getOptStringField (j : Json) (k : String) : Option (Option String) :=
  match j.getField? k with
  | none => some none
  | some .null => some none
  | some (.str s) => some (some s)
  | some _ => none

/-- Decode one `delta.tool_calls` element. -/
def decodeToolCallDelta (j : Json) : Option ToolCallDelta := do
  let index ← (j.getField? "index").bind Json.asInt?
  let callId ← getOptStringField j "id"
  let fn := j.getField? "function"
  let functionName ←
    match fn with
    | none => some none
    | some f => getOptStringField f "name"
  let functionArguments ←
    match fn with
    | none => some none
    | some f => getOptStringField f "arguments"
  pure { index := index, callId := callId, functionName := functionName,
         functionArguments := functionArguments }

/-- Decode one `choices` element. -/
def decodeChoice (j : Json) : Option ChunkChoice := do
  let index ← (j.getField? "index").bind Json.asInt?
  let deltaJson ← j.getField? "delta"
  let content ← getOptStringField deltaJson "content"
  let toolCalls ←
    match deltaJson.getField? "tool_calls" with
    | none => some none
    | some (.arr xs) => (xs.mapM decodeToolCallDelta).map some
    | some _ => none
  let finishReason ← getOptStringField j "finish_reason"
  pure { index := index,
         delta := { content := content, toolCalls := toolCalls },
         finishReason := finishReason }

/-- Decode a `data:` payload into the `OpenAIStreamChunk` shape; `none`
covers both a `JSON.parse` throw and a payload outside the interface's
shape (either way the source logs and skips the line). -/
def decodeChunk (s : String) : Option OpenAIStreamChunk := do
  let j ← jsonParse s
  let id ← (j.getField? "id").bind Json.asString?
  let object ← (j.getField? "object").bind Json.asString?
  let created ← (j.getField? "created").bind Json.asInt?
  let model ← (j.getField? "model").bind Json.asString?
  let choicesJson ← (j.getField? "choices").bind Json.asArray?
  let choices ← choicesJson.mapM decodeChoice
  pure { id := id, object := object, created := created, model := model,
         choices := choices }

/-- Per-index tool-call accumulator (`{ id: '', name: '', arguments: '' }`). -/
structure ToolAcc where
  id : String
  name : String
  arguments : String
deriving DecidableEq, Repr

/-- The `input` of an emitted `tool_use` block: the best-effort
`JSON.parse` of the accumulated arguments, degrading to the
`{ raw: ... }` wrapper. -/
inductive ToolInput where
  | parsed (j : Json)
  | raw (s : String)

/-- The stream events `executeQuery` yields, restricted to the fields the
decode loop sets: `assistant` messages with one text block, `assistant`
messages with one `tool_use` block, and the terminal `result`. -/
inductive PMessage where
  | assistantText (sessionId : String) (text : String)
  | assistantToolUse (sessionId : String) (name : String) (toolUseId : String)
      (input : ToolInput)
  | result (sessionId : String) (text : String)

/-- `accumulatedToolCalls` — a JavaScript `Map<number, …>`: an
insertion-ordered association list; `set` on an existing key updates in
place, on a fresh key appends. -/
abbrev ToolMap := List (Int × ToolAcc)

/-- `Map.get`. -/
def toolMapGet? (m : ToolMap) (k : Int) : Option ToolAcc :=
  (m.find? (fun e => e.1 == k)).map (fun e => e.2)

/-- `Map.set`. -/
def toolMapSet (m : ToolMap) (k : Int) (v : ToolAcc) : ToolMap :=
  if m.any (fun e => e.1 == k) then
    m.map (fun e => if e.1 == k then (k, v) else e)
  else
    m ++ [(k, v)]

/-- Apply one `toolDelta`: each field is copied or appended only when
truthy (a present-but-empty string is falsy and ignored). -/
def applyToolCallDelta (m : ToolMap) (d : ToolCallDelta) : ToolMap :=
  let existing := (toolMapGet? m d.index).getD { id := "", name := "", arguments := "" }
  let e1 :=
    match d.callId with
    | some s => if s ≠ "" then { existing with id := s } else existing
    | none => existing
  let e2 :=
    match d.functionName with
    | some s => if s ≠ "" then { e1 with name := s } else e1
    | none => e1
  let e3 :=
    match d.functionArguments with
    | some s => if s ≠ "" then { e2 with arguments := e2.arguments ++ s } else e2
    | none => e2
  toolMapSet m d.index e3

/-- The emission pass on `finish_reason ∈ {stop, tool_calls}`: every
accumulated call with a truthy `id` and `name`, in map (insertion) order,
with its arguments best-effort parsed. -/
def emitToolCalls (sessionId : String) (m : ToolMap) : List PMessage :=
  m.filterMap (fun e =>
    let tc := e.2
    if tc.id ≠ "" && tc.name ≠ "" then
      some (PMessage.assistantToolUse sessionId tc.name tc.id
        (match jsonParse tc.arguments with
         | some j => ToolInput.parsed j
         | none => ToolInput.raw tc.arguments))
    else
      none)

/-- The decode-loop state: the carried-over incomplete line, the running
`result` text, and the per-index tool-call buffers. -/
structure DecodeState where
  buffer : String
  accumulatedContent : String
  toolCalls : ToolMap

/-- Process one complete line of the SSE body (the inner `for` of the
decode loop): non-`data:` lines and the `[DONE]` sentinel produce nothing;
a decodable payload updates the accumulators and may emit a text delta
and, on a terminal `finish_reason`, the buffered tool calls. -/
def processLine (sessionId : String) (st : DecodeState) (line : String) :
    DecodeState × List PMessage :=
  if strStartsWith line "data: " then
    let data := strDrop line 6
    if data == "[DONE]" then
      (st, [])
    else
      match decodeChunk data with
      | none => (st, [])
      | some chunk =>
          match chunk.choices.head? with
          | none => (st, [])
          | some choice =>
              let (st1, textEvents) :=
                match choice.delta.content with
                | some c =>
                    if c ≠ "" then
                      ({ st with accumulatedContent := st.accumulatedContent ++ c },
                        [PMessage.assistantText sessionId c])
                    else (st, [])
                | none => (st, [])
              let st2 :=
                match choice.delta.toolCalls with
                | some ds =>
                    { st1 with toolCalls := ds.foldl applyToolCallDelta st1.toolCalls }
                | none => st1
              let toolEvents :=
                if choice.finishReason == some "tool_calls" ||
                    choice.finishReason == some "stop" then
                  emitToolCalls sessionId st2.toolCalls
                else []
              (st2, textEvents ++ toolEvents)
  else
    (st, [])

/-- Process a list of complete lines in order, concatenating events. -/
def processLines (sessionId : String) (st : DecodeState) (lines : List String) :
    DecodeState × List PMessage :=
  lines.foldl
    (fun acc line =>
      let step := processLine sessionId acc.1 line
      (step.1, acc.2 ++ step.2))
    (st, [])

/-- One `reader.read()` arrival: append to the buffer, split on `\n`, pop
the trailing incomplete line back into the buffer (`lines.pop() || ''`),
process the complete ones. -/
def feedChunk (sessionId : String) (st : DecodeState) (chunk : String) :
    DecodeState × List PMessage :=
  let buffer := st.buffer ++ chunk
  let parts := strSplitOnChar buffer '\n'
  let newBuffer := parts.getLast?.getD ""
  let lines := parts.dropLast
  processLines sessionId { st with buffer := newBuffer } lines

/-- The whole decode phase of `OpenAIProxyProvider.executeQuery`: run the
read loop over the body's chunk sequence (any leftover incomplete buffer is
discarded when `done` arrives, as in the source) and emit the terminal
`result` event carrying the accumulated text. -/
def openaiDecodeStream (sessionId : String) (chunks : List String) : List PMessage :=
  let final := chunks.foldl
    (fun acc chunk =>
      let step := feedChunk sessionId acc.1 chunk
      (step.1, acc.2 ++ step.2))
    ({ buffer := "", accumulatedContent := "", toolCalls := [] }, [])
  final.2 ++ [PMessage.result sessionId final.1.accumulatedContent]

/-- The literal SSE input of the decoding claim. -/
def c6Input : String :=
  "data: \x7b\"id\":\"1\",\"object\":\"x\",\"created\":0,\"model\":\"m\",\"choices\":[\x7b\"index\":0,\"delta\":\x7b\"content\":\"Hi\"\x7d,\"finish_reason\":null\x7d]\x7d\n\ndata: [DONE]\n\n"

/-! ## Specification-side definitions and fixtures

`resolveProviderNameSpecLiteral` follows the specification's words for the
registry resolution — including its phase-2 clause "whose name is a
case-sensitive dash-prefix of the model id" applied to the model id as
given; `resolveProviderNameAmended` is the same description with the
prefix test applied to the lower-cased model id, which is what the source
does.  The fixtures below are concrete values used by witnesses and
counterexamples. -/

/-- The registry-resolution algorithm as the specification words it:
first registration (priority-descending, stable) whose predicate accepts
the lower-cased model id; else the first whose name is a case-sensitive
dash-prefix of the model id *as given*; else `"claude"`. -/
def resolveProviderNameSpecLiteral (registry : ProviderRegistry) (model : String) :
    String :=
  let sorted := sortByPriorityDesc registry
  ((((sorted.find? (fun nr => canHandle nr.2 (strLower model))).map Prod.fst).orElse
      (fun _ => (sorted.find? (fun nr => strStartsWith model (nr.1 ++ "-"))).map Prod.fst)).getD
    "claude")

/-- The same description with phase 2 testing the *lower-cased* model id
(registry names are stored lower-cased, so the prefix convention is
case-insensitive in the model id). -/
def resolveProviderNameAmended (registry : ProviderRegistry) (model : String) :
    String :=
  let sorted := sortByPriorityDesc registry
  ((((sorted.find? (fun nr => canHandle nr.2 (strLower model))).map Prod.fst).orElse
      (fun _ =>
        (sorted.find? (fun nr => strStartsWith (strLower model) (nr.1 ++ "-"))).map Prod.fst)).getD
    "claude")

/-- Sortedness by descending priority (the comparator's postcondition). -/
abbrev PrioDescSorted (l : List (String × ProviderRegistration)) : Prop :=
  l.Pairwise (fun a b => registrationPriority b.2 ≤ registrationPriority a.2)

/-- The error component of an attempt's outcome. -/
def exceptError? {E T : Type} : Except E T → Option E
  | .error e => some e
  | .ok _ => none

/-- Concrete profile builder for witnesses and counterexamples. -/
def fixtureProfile (id name : String) (type : ProviderProfileType)
    (baseUrl : String) (isActive : Bool) (priority : Int)
    (mapping : List ModelMappingEntry) : ProviderProfile :=
  { id := id, name := name, type := type, baseUrl := baseUrl, apiKey := "key"
    modelMapping := mapping, isActive := isActive, priority := priority
    createdAt := "2024-01-01", updatedAt := "2024-01-01" }

/-- A one-entry registry with a registration named `"cursor"` carrying no
`canHandleModel` predicate. -/
def cursorOnlyRegistry : ProviderRegistry :=
  [("cursor", { factory := .standard "cursor" })]

/-- A one-entry registry holding only the `"claude"` registration (its
`canHandleModel` closure as registered in the source). -/
def claudeOnlyRegistry : ProviderRegistry :=
  [("claude",
    { factory := .standard "claude"
      aliases := some ["anthropic"]
      canHandleModel := some (fun model =>
        strStartsWith model "claude-" ||
          ["opus", "sonnet", "haiku"].any
            (fun n => model.toList.tails.any (fun t => n.toList.isPrefixOf t)))
      priority := some 0 })]

/-! # Theorems -/

/-! ## C4 — model-mapping round-trip -/

/-- C4, counterexample: with the mapping `[{a → r}, {b → r}]` the model
`"b"` appears as a `localModel` in exactly one entry, yet the round trip
returns `"a"`, not `"b"` — duplicate `remoteModel`s defeat the reverse
lookup even when the forward key is unique. -/
theorem mapModel_roundtrip_counterexample :
    localModelCount
        (fixtureProfile "p1" "P" .anthropicCompatible "https://e.com" true 1
          [⟨"a", "r"⟩, ⟨"b", "r"⟩]) "b" = 1 ∧
    mapModelFromRemote
        (mapModelToRemote "b"
          (fixtureProfile "p1" "P" .anthropicCompatible "https://e.com" true 1
            [⟨"a", "r"⟩, ⟨"b", "r"⟩]))
        (fixtureProfile "p1" "P" .anthropicCompatible "https://e.com" true 1
          [⟨"a", "r"⟩, ⟨"b", "r"⟩]) ≠ "b" := by
  constructor
  · rfl
  · decide

/-- C4 (amended): the round trip `mapModelFromRemote (mapModelToRemote m p) p = m`
holds when the first entry matching `m` case-insensitively on `localModel`
carries `m` literally, and that same entry is also the first whose
`remoteModel` matches its own `remoteModel` case-insensitively (no earlier
duplicate remote name). -/
theorem mapModel_roundtrip_unique (p : ProviderProfile) (m : String)
    (e : ModelMappingEntry)
    (h1 : p.modelMapping.find? (fun x => strLower x.localModel == strLower m) = some e)
    (h2 : e.localModel = m)
    (h3 : p.modelMapping.find?
      (fun x => strLower x.remoteModel == strLower e.remoteModel) = some e) :
    mapModelFromRemote (mapModelToRemote m p) p = m := by
  unfold mapModelToRemote
  rw [h1]
  unfold mapModelFromRemote
  rw [h3]
  exact h2

/-- C4 witness: the amended round trip evaluated on a concrete
two-entry mapping. -/
theorem mapModel_roundtrip_unique_witness :
    mapModelFromRemote
        (mapModelToRemote "a"
          (fixtureProfile "p1" "P" .anthropicCompatible "https://e.com" true 1
            [⟨"a", "r"⟩, ⟨"b", "s"⟩]))
        (fixtureProfile "p1" "P" .anthropicCompatible "https://e.com" true 1
          [⟨"a", "r"⟩, ⟨"b", "s"⟩]) = "a" :=
  mapModel_roundtrip_unique _ _ ⟨"a", "r"⟩ (by decide) rfl (by decide)

/-! ## C5 — SSRF bypass flag behaviour -/

/-- Reduction of `validateBaseUrlSsrf` on a successful parse. -/
theorem validateBaseUrlSsrf_parse_some (parse : String → Option URLParts)
    (u : String) (parts : URLParts) (hp : parse u = some parts)
    (allow : Bool) :
    validateBaseUrlSsrf parse u allow = validateParsed parts allow := by
  simp only [validateBaseUrlSsrf, hp]

/-- Reduction of `validateBaseUrlSsrf` on a parse failure. -/
theorem validateBaseUrlSsrf_parse_none (parse : String → Option URLParts)
    (u : String) (hp : parse u = none) (allow : Bool) :
    validateBaseUrlSsrf parse u allow =
      { safe := false, reason := some "Invalid URL" } := by
  simp only [validateBaseUrlSsrf, hp]

/-- C5: `validateBaseUrlSsrf` is a total function of its input string (the
embedding returns a result for every `url` and every parser answer,
mirroring the source's outermost catch), and the bypass flag acts exactly
on the hostname check: (1) a URL rejected for hostname reasons under
`allowInternalUrls = false` is accepted with `bypassedByUser` under `true`;
(2) a URL rejected for its scheme gets the identical result under either
flag; (3) likewise for an unparseable URL. -/
theorem validateBaseUrlSsrf_bypass (parse : String → Option URLParts) (u : String) :
    (∀ parts, parse u = some parts →
      ["http:", "https:"].contains parts.protocol = true →
      isInternalHostname (strLower parts.hostname) = true →
      validateBaseUrlSsrf parse u false =
        { safe := false,
          reason := some ("Internal/private addresses are not allowed: " ++
            strLower parts.hostname ++
            ". Enable \"Allow Internal URLs\" to bypass this check.") } ∧
      validateBaseUrlSsrf parse u true = { safe := true, bypassedByUser := some true }) ∧
    (∀ parts, parse u = some parts →
      ["http:", "https:"].contains parts.protocol = false →
      validateBaseUrlSsrf parse u true = validateBaseUrlSsrf parse u false) ∧
    (parse u = none →
      validateBaseUrlSsrf parse u true = validateBaseUrlSsrf parse u false) := by
  refine ⟨?_, ?_, ?_⟩
  · intro parts hp hproto hint
    rw [validateBaseUrlSsrf_parse_some parse u parts hp,
      validateBaseUrlSsrf_parse_some parse u parts hp]
    unfold validateParsed
    rw [hproto, hint]
    exact ⟨rfl, rfl⟩
  · intro parts hp hproto
    rw [validateBaseUrlSsrf_parse_some parse u parts hp,
      validateBaseUrlSsrf_parse_some parse u parts hp]
    unfold validateParsed
    rw [hproto]
    rfl
  · intro hp
    rw [validateBaseUrlSsrf_parse_none parse u hp,
      validateBaseUrlSsrf_parse_none parse u hp]

/-- C5 witness: the theorem applied to a loopback URL (hostname rejection
becomes a user bypass) and to an `ftp:` URL (scheme rejection is identical
under both flags). -/
theorem validateBaseUrlSsrf_bypass_witness :
    validateBaseUrlSsrf (fun _ => some ⟨"http:", "127.0.0.1"⟩)
        "http://127.0.0.1:8080" true = { safe := true, bypassedByUser := some true } ∧
    validateBaseUrlSsrf (fun _ => some ⟨"ftp:", "example.com"⟩)
        "ftp://example.com" true =
      validateBaseUrlSsrf (fun _ => some ⟨"ftp:", "example.com"⟩)
        "ftp://example.com" false :=
  ⟨((validateBaseUrlSsrf_bypass (fun _ => some ⟨"http:", "127.0.0.1"⟩)
        "http://127.0.0.1:8080").1 ⟨"http:", "127.0.0.1"⟩ rfl (by decide) (by decide)).2,
    (validateBaseUrlSsrf_bypass (fun _ => some ⟨"ftp:", "example.com"⟩)
        "ftp://example.com").2.1 ⟨"ftp:", "example.com"⟩ rfl (by decide)⟩

/-! ## C7 — environment allowlist of the Anthropic proxy -/

/-- C7: every binding the Anthropic-compatible provider forwards to the SDK
is either an allowlisted process variable (carrying that variable's process
value) or one of the two profile-derived overrides; consequently the
forwarded environment is a function of the allowlisted variables alone —
two process environments agreeing on `ALLOWED_ENV_VARS` produce identical
forwarded environments. -/
theorem buildEnv_allowlist :
    (∀ (penv : String → Option String) (profile : ProviderProfile) (k v : String),
      (k, v) ∈ buildEnv penv profile →
      (k ∈ ALLOWED_ENV_VARS ∧ penv k = some v) ∨
      (k = "ANTHROPIC_BASE_URL" ∧ v = profile.baseUrl) ∨
      (k = "ANTHROPIC_API_KEY" ∧ v = profile.apiKey)) ∧
    (∀ (penv1 penv2 : String → Option String) (profile : ProviderProfile),
      (∀ k ∈ ALLOWED_ENV_VARS, penv1 k = penv2 k) →
      buildEnv penv1 profile = buildEnv penv2 profile) := by
  constructor
  · intro penv profile k v hmem
    unfold buildEnv at hmem
    rw [List.mem_append] at hmem
    rcases hmem with hmem | hmem
    · left
      rw [List.mem_filterMap] at hmem
      obtain ⟨a, ha, hfa⟩ := hmem
      cases hpa : penv a with
      | none => rw [hpa] at hfa; cases hfa
      | some w =>
          rw [hpa] at hfa
          have hfa2 : (if w ≠ "" then some (a, w) else none) = some (k, v) := hfa
          by_cases hw : w = ""
          · subst hw
            simp at hfa2
          · rw [if_pos hw] at hfa2
            obtain ⟨rfl, rfl⟩ := Prod.mk.inj (Option.some.inj hfa2)
            exact ⟨ha, hpa⟩
    · simp only [List.mem_cons, List.not_mem_nil, or_false] at hmem
      rcases hmem with h | h
      · right; left
        exact ⟨congrArg Prod.fst h, congrArg Prod.snd h⟩
      · right; right
        exact ⟨congrArg Prod.fst h, congrArg Prod.snd h⟩
  · intro penv1 penv2 profile hagree
    unfold buildEnv
    congr 1
    exact List.filterMap_congr (fun a ha => by rw [hagree a ha])

/-- C7 witness: two concrete process environments that differ only in a
non-allowlisted `SECRET_TOKEN` variable forward the identical environment,
and a concrete binding decomposes as the theorem states. -/
theorem buildEnv_allowlist_witness :
    buildEnv
        (fun k => if k = "PATH" then some "/usr/bin"
          else if k = "SECRET_TOKEN" then some "hunter2" else none)
        (fixtureProfile "p1" "P" .anthropicCompatible "https://proxy.example" true 1 []) =
      buildEnv
        (fun k => if k = "PATH" then some "/usr/bin" else none)
        (fixtureProfile "p1" "P" .anthropicCompatible "https://proxy.example" true 1 []) ∧
    (("PATH" ∈ ALLOWED_ENV_VARS ∧
        (fun k => if k = "PATH" then some "/usr/bin"
          else if k = "SECRET_TOKEN" then some "hunter2" else none) "PATH" =
          some "/usr/bin") ∨
      ("PATH" = "ANTHROPIC_BASE_URL" ∧ "/usr/bin" = "https://proxy.example") ∨
      ("PATH" = "ANTHROPIC_API_KEY" ∧ "/usr/bin" = "key")) := by
  constructor
  · exact buildEnv_allowlist.2
      (fun k => if k = "PATH" then some "/usr/bin"
        else if k = "SECRET_TOKEN" then some "hunter2" else none)
      (fun k => if k = "PATH" then some "/usr/bin" else none)
      (fixtureProfile "p1" "P" .anthropicCompatible "https://proxy.example" true 1 [])
      (by decide)
  · exact buildEnv_allowlist.1
      (fun k => if k = "PATH" then some "/usr/bin"
        else if k = "SECRET_TOKEN" then some "hunter2" else none)
      (fixtureProfile "p1" "P" .anthropicCompatible "https://proxy.example" true 1 [])
      "PATH" "/usr/bin" (by decide)

/-! ## C8 — connection-test classification -/

/-- C8, counterexample to the claim as stated: for an `openai-compatible`
profile an HTTP 204 — a status other than 200, 401 and 403 — is classified
as `success = true` with no error (the source tests `response.ok`, i.e.
any 2xx), not as an unexpected-response failure. -/
theorem testConnection_openai_204_counterexample :
    (testProfileConnectionClassify .openaiCompatible 204 "No Content" "" none
        5 "2024-01-01").success = true ∧
    (testProfileConnectionClassify .openaiCompatible 204 "No Content" "" none
        5 "2024-01-01").error = none ∧
    ((204 : Nat) ≠ 200 ∧ (204 : Nat) ≠ 401 ∧ (204 : Nat) ≠ 403) :=
  ⟨rfl, rfl, by decide⟩

/-- C8 (amended): the connection test classifies a completed HTTP exchange
as follows.  Both profile types: status 401 or 403 is an authentication
failure.  `anthropic-compatible`: status 200, 400 or 404 is a success.
`openai-compatible`: any 2xx is a success carrying the parsed model list;
any non-2xx other than 401/403 is an unexpected-response failure.  Every
result carries `responseTimeMs` and `testedAt`. -/
theorem testConnection_classification (status : Nat)
    (statusText errorText : String) (modelsBody : Option (List String))
    (rt : Int) (ts : String) :
    ((status = 401 ∨ status = 403) →
      ∀ t : ProviderProfileType,
        testProfileConnectionClassify t status statusText errorText modelsBody rt ts =
          { success := false,
            error := some "Authentication failed. Please check your API key.",
            responseTimeMs := some rt, testedAt := ts }) ∧
    ((status = 200 ∨ status = 400 ∨ status = 404) →
      testProfileConnectionClassify .anthropicCompatible status statusText
          errorText modelsBody rt ts =
        { success := true, responseTimeMs := some rt, testedAt := ts }) ∧
    (httpOk status = true →
      testProfileConnectionClassify .openaiCompatible status statusText
          errorText modelsBody rt ts =
        { success := true, responseTimeMs := some rt,
          availableModels := modelsBody, testedAt := ts }) ∧
    (httpOk status = false → status ≠ 401 → status ≠ 403 →
      testProfileConnectionClassify .openaiCompatible status statusText
          errorText modelsBody rt ts =
        testProfileConnectionClassify.unexpectedResponse status statusText
          errorText rt ts) ∧
    (∀ t : ProviderProfileType,
      (testProfileConnectionClassify t status statusText errorText modelsBody
          rt ts).responseTimeMs = some rt ∧
      (testProfileConnectionClassify t status statusText errorText modelsBody
          rt ts).testedAt = ts) := by
  refine ⟨?_, ?_, ?_, ?_, ?_⟩
  · rintro (rfl | rfl) t <;> cases t <;> rfl
  · rintro (rfl | rfl | rfl) <;> rfl
  · intro hok
    have hb : (status == 401 || status == 403) = false := by
      have h2 : 200 ≤ status ∧ status ≤ 299 := by
        simpa [httpOk, Bool.and_eq_true, decide_eq_true_eq] using hok
      have h401 : status ≠ 401 := by omega
      have h403 : status ≠ 403 := by omega
      simp [h401, h403]
    unfold testProfileConnectionClassify
    rw [hb, hok]
    rfl
  · intro hok h401 h403
    have hb : (status == 401 || status == 403) = false := by simp [h401, h403]
    unfold testProfileConnectionClassify
    rw [hb, hok]
    rfl
  · intro t
    cases t <;> unfold testProfileConnectionClassify <;> split_ifs <;>
      exact ⟨rfl, rfl⟩

/-- C8 witness: the classification evaluated at concrete exchanges — a 401
(auth failure), a 400 on the Anthropic path (reachable), a 200 on the
OpenAI path (success with harvested models) and a 500 on the OpenAI path
(unexpected response). -/
theorem testConnection_classification_witness :
    testProfileConnectionClassify .anthropicCompatible 401 "Unauthorized" ""
        none 3 "2024-01-01" =
      { success := false,
        error := some "Authentication failed. Please check your API key.",
        responseTimeMs := some 3, testedAt := "2024-01-01" } ∧
    testProfileConnectionClassify .anthropicCompatible 400 "Bad Request" ""
        none 3 "2024-01-01" =
      { success := true, responseTimeMs := some 3, testedAt := "2024-01-01" } ∧
    testProfileConnectionClassify .openaiCompatible 200 "OK" ""
        (some ["gpt-4o"]) 3 "2024-01-01" =
      { success := true, responseTimeMs := some 3,
        availableModels := some ["gpt-4o"], testedAt := "2024-01-01" } ∧
    testProfileConnectionClassify .openaiCompatible 500 "Internal Server Error"
        "oops" none 3 "2024-01-01" =
      testProfileConnectionClassify.unexpectedResponse 500
        "Internal Server Error" "oops" 3 "2024-01-01" :=
  ⟨(testConnection_classification 401 "Unauthorized" "" none 3 "2024-01-01").1
      (Or.inl rfl) .anthropicCompatible,
    (testConnection_classification 400 "Bad Request" "" none 3 "2024-01-01").2.1
      (Or.inr (Or.inl rfl)),
    (testConnection_classification 200 "OK" "" (some ["gpt-4o"]) 3 "2024-01-01").2.2.1
      (by decide),
    (testConnection_classification 500 "Internal Server Error" "oops" none 3
        "2024-01-01").2.2.2.1 (by decide) (by decide) (by decide)⟩

/-! ## C3 — provider-name resolution -/

/-- Inserting into a priority-sorted prefix is a permutation of consing. -/
theorem insertPrioDesc_perm (x : String × ProviderRegistration)
    (l : List (String × ProviderRegistration)) :
    List.Perm (insertPrioDesc x l) (x :: l) := by
  induction l with
  | nil => exact List.Perm.refl _
  | cons y ys ih =>
      unfold insertPrioDesc
      split
      · exact List.Perm.refl _
      · exact (ih.cons y).trans (List.Perm.swap x y ys)

/-- Insertion preserves descending-priority sortedness. -/
theorem insertPrioDesc_sorted (x : String × ProviderRegistration)
    (l : List (String × ProviderRegistration)) (h : PrioDescSorted l) :
    PrioDescSorted (insertPrioDesc x l) := by
  induction l with
  | nil => simp [insertPrioDesc, PrioDescSorted]
  | cons y ys ih =>
      obtain ⟨hhead, htail⟩ := List.pairwise_cons.mp h
      unfold insertPrioDesc
      split
      · rename_i hcmp
        refine List.Pairwise.cons ?_ h
        intro a ha
        rcases List.mem_cons.mp ha with rfl | ha
        · exact le_of_lt hcmp
        · exact le_trans (hhead a ha) (le_of_lt hcmp)
      · rename_i hcmp
        refine List.Pairwise.cons ?_ (ih htail)
        intro a ha
        have ha2 := (insertPrioDesc_perm x ys).subset ha
        rcases List.mem_cons.mp ha2 with rfl | ha2
        · exact le_of_not_lt hcmp
        · exact hhead a ha2

/-- Stability of insertion, phrased through filtering on one priority key:
inserting `x` into a sorted prefix appends `x` after all existing entries
of its key and touches no other key's subsequence. -/
theorem insertPrioDesc_filter (k : Int) (x : String × ProviderRegistration)
    (l : List (String × ProviderRegistration)) (h : PrioDescSorted l) :
    (insertPrioDesc x l).filter (fun e => registrationPriority e.2 == k) =
      if registrationPriority x.2 == k then
        l.filter (fun e => registrationPriority e.2 == k) ++ [x]
      else
        l.filter (fun e => registrationPriority e.2 == k) := by
  induction l with
  | nil =>
      simp only [insertPrioDesc, List.filter_cons, List.filter_nil]
      split <;> simp
  | cons y ys ih =>
      obtain ⟨hhead, htail⟩ := List.pairwise_cons.mp h
      unfold insertPrioDesc
      split
      · rename_i hcmp
        by_cases hx : registrationPriority x.2 == k
        · have hk : registrationPriority x.2 = k := by simpa using hx
          have hnil : (y :: ys).filter (fun e => registrationPriority e.2 == k) = [] := by
            refine List.filter_eq_nil_iff.mpr ?_
            intro a ha
            rcases List.mem_cons.mp ha with rfl | ha
            · simp only [beq_iff_eq]
              omega
            · have h1 := hhead a ha
              simp only [beq_iff_eq]
              omega
          rw [List.filter_cons_of_pos (by simpa using hx), hnil, hx]
          simp
        · rw [List.filter_cons_of_neg (by simpa using hx)]
          simp [hx]
      · rename_i hcmp
        simp only [List.filter_cons, ih htail]
        split_ifs with hy hx hx <;> simp [hy, hx]

/-- The fold underlying `sortByPriorityDesc` permutes its inputs. -/
theorem sortFoldl_perm (l acc : List (String × ProviderRegistration)) :
    List.Perm (l.foldl (fun a x => insertPrioDesc x a) acc) (acc ++ l) := by
  induction l generalizing acc with
  | nil => simp
  | cons x xs ih =>
      exact (ih (insertPrioDesc x acc)).trans
        (((insertPrioDesc_perm x acc).append_right xs).trans List.perm_middle.symm)

/-- The fold underlying `sortByPriorityDesc` returns a sorted list. -/
theorem sortFoldl_sorted (l acc : List (String × ProviderRegistration))
    (h : PrioDescSorted acc) :
    PrioDescSorted (l.foldl (fun a x => insertPrioDesc x a) acc) := by
  induction l generalizing acc with
  | nil => exact h
  | cons x xs ih => exact ih _ (insertPrioDesc_sorted x acc h)

/-- Stability of the fold: the subsequence of any one priority key is the
input's subsequence of that key (appended after the accumulator's). -/
theorem sortFoldl_filter (k : Int) (l acc : List (String × ProviderRegistration))
    (h : PrioDescSorted acc) :
    (l.foldl (fun a x => insertPrioDesc x a) acc).filter
        (fun e => registrationPriority e.2 == k) =
      acc.filter (fun e => registrationPriority e.2 == k) ++
        l.filter (fun e => registrationPriority e.2 == k) := by
  induction l generalizing acc with
  | nil => simp
  | cons x xs ih =>
      rw [List.foldl_cons, ih (insertPrioDesc x acc) (insertPrioDesc_sorted x acc h),
        insertPrioDesc_filter k x acc h, List.filter_cons]
      split_ifs with hx <;> simp_all

/-- C3 (amended): `getProviderNameForModel` sorts the registrations by
priority descending — the sorted list is a permutation of the registry,
pairwise-sorted, and stable (each priority key's subsequence is preserved
verbatim) — and then resolves exactly as described, except that the
phase-2 dash-prefix convention tests the *lower-cased* model id (registry
names are stored lower-cased, so the prefix match is case-insensitive in
the model id, not case-sensitive).  Resolution is deterministic: it is a
pure function of the registration list and the model id. -/
theorem providerName_resolution :
    (∀ registry : ProviderRegistry,
      List.Perm (sortByPriorityDesc registry) registry ∧
      PrioDescSorted (sortByPriorityDesc registry) ∧
      (∀ k : Int,
        (sortByPriorityDesc registry).filter (fun e => registrationPriority e.2 == k) =
          registry.filter (fun e => registrationPriority e.2 == k))) ∧
    (∀ (registry : ProviderRegistry) (model : String),
      getProviderNameForModel registry model = resolveProviderNameAmended registry model) ∧
    (∀ (registry : ProviderRegistry) (model : String),
      getProviderNameForModel registry model = getProviderNameForModel registry model) := by
  refine ⟨?_, ?_, fun registry model => rfl⟩
  · intro registry
    refine ⟨?_, ?_, ?_⟩
    · simpa using sortFoldl_perm registry []
    · exact sortFoldl_sorted registry [] List.Pairwise.nil
    · intro k
      simpa using sortFoldl_filter k registry [] List.Pairwise.nil
  · intro registry model
    simp only [getProviderNameForModel, resolveProviderNameAmended]
    cases h1 : (sortByPriorityDesc registry).find?
        (fun nr => canHandle nr.2 (strLower model)) with
    | some nr => simp [h1]
    | none =>
        cases h2 : (sortByPriorityDesc registry).find?
            (fun nr => strStartsWith (strLower model) (nr.1 ++ "-")) with
        | some nr => simp [h1, h2]
        | none => simp [h1, h2]

/-- C3, counterexample to the phase-2 clause as stated: with a single
registration named `"cursor"` carrying no predicate, the model id
`"CURSOR-auto"` resolves to `"cursor"` in the source (the prefix is tested
against the lower-cased id), whereas the claim's case-sensitive prefix test
on the id as given would fall through to the default `"claude"`. -/
theorem providerName_case_prefix_counterexample :
    getProviderNameForModel cursorOnlyRegistry "CURSOR-auto" = "cursor" ∧
    resolveProviderNameSpecLiteral cursorOnlyRegistry "CURSOR-auto" = "claude" ∧
    "cursor" ≠ "claude" :=
  ⟨rfl, rfl, by decide⟩

/-! ## C2 — fallback-chain construction for Claude-family models -/

/-- C2: for a Claude-family model id (per the source's family test on the
lower-cased id, which covers every id starting with `"claude-"` or
containing `"opus"`, `"sonnet"` or `"haiku"`), the fallback chain is one
`AnthropicProxyProvider` per active `anthropic-compatible` profile, in the
profiles' given order, followed by the provider from the registry's
default resolution — exactly N + 1 candidates for N matching active
profiles, hence never empty. -/
theorem getFallbackProviders_claude_chain (registry : ProviderRegistry)
    (modelId : String) (profiles : List ProviderProfile) (sp : BaseProvider)
    (hclaude : isClaudeFamily (strLower modelId) = true)
    (hstd : getProviderForModel registry modelId = some sp) :
    getFallbackProviders registry modelId profiles =
      some ((profiles.filter
          (fun p => p.type == ProviderProfileType.anthropicCompatible && p.isActive)).map
        BaseProvider.anthropicProxy ++ [sp]) ∧
    ∀ chain, getFallbackProviders registry modelId profiles = some chain →
      chain.length = (profiles.filter
          (fun p => p.type == ProviderProfileType.anthropicCompatible &&
            p.isActive)).length + 1 := by
  have hmap : (profiles.filter
        (fun p => p.type == ProviderProfileType.anthropicCompatible && p.isActive)).map
          createProviderFromProfile =
      (profiles.filter
        (fun p => p.type == ProviderProfileType.anthropicCompatible && p.isActive)).map
          BaseProvider.anthropicProxy := by
    refine List.map_congr_left ?_
    intro p hp
    have htype : p.type = ProviderProfileType.anthropicCompatible := by
      have := (List.mem_filter.mp hp).2
      have := (Bool.and_eq_true _ _).mp this
      exact beq_iff_eq.mp this.1
    unfold createProviderFromProfile
    rw [htype]
  have hmain : getFallbackProviders registry modelId profiles =
      some ((profiles.filter
          (fun p => p.type == ProviderProfileType.anthropicCompatible && p.isActive)).map
        BaseProvider.anthropicProxy ++ [sp]) := by
    simp only [getFallbackProviders, hclaude, if_true, hstd, hmap]
  refine ⟨hmain, ?_⟩
  intro chain hchain
  rw [hmain] at hchain
  obtain rfl := Option.some.inj hchain
  simp

/-- C2 witness: a concrete registry holding the `"claude"` registration and
a profile list with two active `anthropic-compatible` profiles, one
inactive one and one active `openai-compatible` one produces the 3-element
chain (2 + 1) in priority order. -/
theorem getFallbackProviders_claude_chain_witness :
    getFallbackProviders claudeOnlyRegistry "claude-3-opus"
        [fixtureProfile "a1" "A1" .anthropicCompatible "https://a1.example" true 9 [],
          fixtureProfile "a2" "A2" .anthropicCompatible "https://a2.example" true 5 [],
          fixtureProfile "a3" "A3" .anthropicCompatible "https://a3.example" false 3 [],
          fixtureProfile "o1" "O1" .openaiCompatible "https://o1.example" true 8 []] =
      some [BaseProvider.anthropicProxy
          (fixtureProfile "a1" "A1" .anthropicCompatible "https://a1.example" true 9 []),
        BaseProvider.anthropicProxy
          (fixtureProfile "a2" "A2" .anthropicCompatible "https://a2.example" true 5 []),
        BaseProvider.standard "claude"] :=
  (getFallbackProviders_claude_chain claudeOnlyRegistry "claude-3-opus"
    [fixtureProfile "a1" "A1" .anthropicCompatible "https://a1.example" true 9 [],
      fixtureProfile "a2" "A2" .anthropicCompatible "https://a2.example" true 5 [],
      fixtureProfile "a3" "A3" .anthropicCompatible "https://a3.example" false 3 [],
      fixtureProfile "o1" "O1" .openaiCompatible "https://o1.example" true 8 []]
    (BaseProvider.standard "claude") (by decide) (by decide)).1

/-! ## C1 — fallback executor -/

/-- Walking the loop across a failing prefix up to the first success:
every failed candidate contributes exactly one log entry, the success
returns immediately, and nothing after the succeeding candidate is ever
examined (the result does not depend on `post`). -/
theorem fallbackLoop_first_success {E T : Type} (exec : BaseProvider → Except E T)
    (r : T) (pre : List BaseProvider)
    (hpre : ∀ q ∈ pre, ∃ e, exec q = .error e) (p : BaseProvider)
    (post : List BaseProvider) (log : List E) (last : Option E)
    (hp : exec p = .ok r) :
    fallbackLoop exec (pre ++ p :: post) log last =
      (log ++ pre.filterMap (fun q => exceptError? (exec q)), .ok r) := by
  induction pre generalizing log last with
  | nil => simp [fallbackLoop, hp]
  | cons q qs ih =>
      obtain ⟨e, he⟩ := hpre q (List.mem_cons_self q qs)
      simp only [List.cons_append, fallbackLoop, he, List.append_eq]
      rw [ih (fun x hx => hpre x (List.mem_cons_of_mem q hx)) (log ++ [e]) (some e)]
      simp [List.filterMap_cons, he, exceptError?]

/-- Walking the loop across an entirely failing chain: one log entry per
candidate, and the error finally thrown is the last candidate's. -/
theorem fallbackLoop_exhausted {E T : Type} (exec : BaseProvider → Except E T)
    (p : BaseProvider) (e : E) (he : exec p = .error e)
    (pre : List BaseProvider) (hpre : ∀ q ∈ pre, ∃ e', exec q = .error e') :
    ∀ (log : List E) (last : Option E),
      fallbackLoop exec (pre ++ [p]) log last =
        (log ++ (pre ++ [p]).filterMap (fun q => exceptError? (exec q)),
          .error (some e)) := by
  induction pre with
  | nil => intro log last; simp [fallbackLoop, he, exceptError?]
  | cons q qs ih =>
      intro log last
      obtain ⟨e', he'⟩ := hpre q (List.mem_cons_self q qs)
      simp only [List.cons_append, fallbackLoop, he', List.append_eq]
      rw [ih (fun x hx => hpre x (List.mem_cons_of_mem q hx)) (log ++ [e']) (some e')]
      simp [List.filterMap_cons, he', exceptError?]

/-- C1: `executeWithFallback` invokes the chain's candidates strictly in
order.  If every candidate before some `p` fails and `p` succeeds, the call
returns `p`'s result, the failure log holds exactly one recorded error per
failed candidate (in order), and the candidates after `p` are never
consulted (the outcome is independent of them).  If every candidate fails,
the call records every error and raises exactly the *last* candidate's
error — not an aggregate.  (The "wrapping" the specification mentions
happens inside each provider, which annotates its own error with profile
identity before rethrowing; the executor rethrows the recorded error object
unchanged, which is why the B-error surfaces for a chain `[A, B]`.) -/
theorem executeWithFallback_behavior {E T : Type} (registry : ProviderRegistry)
    (modelId : String) (profiles : List ProviderProfile)
    (exec : BaseProvider → Except E T) (chain : List BaseProvider)
    (hchain : getFallbackProviders registry modelId profiles = some chain) :
    (∀ (pre : List BaseProvider) (p : BaseProvider) (post : List BaseProvider) (r : T),
      chain = pre ++ p :: post →
      (∀ q ∈ pre, ∃ e, exec q = .error e) →
      exec p = .ok r →
      executeWithFallback registry modelId profiles exec =
        some (pre.filterMap (fun q => exceptError? (exec q)), .ok r)) ∧
    (∀ (pre : List BaseProvider) (p : BaseProvider) (e : E),
      chain = pre ++ [p] →
      (∀ q ∈ pre, ∃ e', exec q = .error e') →
      exec p = .error e →
      executeWithFallback registry modelId profiles exec =
        some (chain.filterMap (fun q => exceptError? (exec q)), .error (some e))) := by
  constructor
  · intro pre p post r hsplit hpre hp
    have hloop := fallbackLoop_first_success exec r pre hpre p post [] none hp
    simp only [executeWithFallback, hchain, hsplit, hloop]
    simp
  · intro pre p e hsplit hpre hp
    have hloop := fallbackLoop_exhausted exec p e hp pre hpre [] none
    simp only [executeWithFallback, hchain, hsplit, hloop]
    simp

/-- C1 witness: on the concrete chain `[A (fails), B (fails), standard
(succeeds)]` the executor returns the standard provider's result with
exactly the two failure log entries; when the standard provider fails too,
it raises the standard provider's (last) error after three log entries. -/
theorem executeWithFallback_behavior_witness :
    executeWithFallback claudeOnlyRegistry "claude-3-opus"
        [fixtureProfile "a1" "A1" .anthropicCompatible "https://a1.example" true 9 [],
          fixtureProfile "a2" "A2" .anthropicCompatible "https://a2.example" true 5 []]
        (fun pr => match pr with
          | .anthropicProxy pf => (.error ("fail:" ++ pf.id) : Except String Nat)
          | _ => .ok 7) =
      some (["fail:a1", "fail:a2"], .ok 7) ∧
    executeWithFallback claudeOnlyRegistry "claude-3-opus"
        [fixtureProfile "a1" "A1" .anthropicCompatible "https://a1.example" true 9 [],
          fixtureProfile "a2" "A2" .anthropicCompatible "https://a2.example" true 5 []]
        (fun pr => match pr with
          | .anthropicProxy pf => (.error ("fail:" ++ pf.id) : Except String Nat)
          | _ => .error "fail:std") =
      some (["fail:a1", "fail:a2", "fail:std"], .error (some "fail:std")) := by
  constructor
  · exact (executeWithFallback_behavior claudeOnlyRegistry "claude-3-opus"
      [fixtureProfile "a1" "A1" .anthropicCompatible "https://a1.example" true 9 [],
        fixtureProfile "a2" "A2" .anthropicCompatible "https://a2.example" true 5 []]
      (fun pr => match pr with
        | .anthropicProxy pf => (.error ("fail:" ++ pf.id) : Except String Nat)
        | _ => .ok 7)
      [BaseProvider.anthropicProxy
          (fixtureProfile "a1" "A1" .anthropicCompatible "https://a1.example" true 9 []),
        BaseProvider.anthropicProxy
          (fixtureProfile "a2" "A2" .anthropicCompatible "https://a2.example" true 5 []),
        BaseProvider.standard "claude"]
      (by decide)).1
      [BaseProvider.anthropicProxy
          (fixtureProfile "a1" "A1" .anthropicCompatible "https://a1.example" true 9 []),
        BaseProvider.anthropicProxy
          (fixtureProfile "a2" "A2" .anthropicCompatible "https://a2.example" true 5 [])]
      (BaseProvider.standard "claude") [] 7 rfl
      (by
        intro q hq
        rcases List.mem_cons.mp hq with rfl | hq
        · exact ⟨_, rfl⟩
        rcases List.mem_cons.mp hq with rfl | hq
        · exact ⟨_, rfl⟩
        cases hq)
      rfl
  · exact (executeWithFallback_behavior claudeOnlyRegistry "claude-3-opus"
      [fixtureProfile "a1" "A1" .anthropicCompatible "https://a1.example" true 9 [],
        fixtureProfile "a2" "A2" .anthropicCompatible "https://a2.example" true 5 []]
      (fun pr => match pr with
        | .anthropicProxy pf => (.error ("fail:" ++ pf.id) : Except String Nat)
        | _ => .error "fail:std")
      [BaseProvider.anthropicProxy
          (fixtureProfile "a1" "A1" .anthropicCompatible "https://a1.example" true 9 []),
        BaseProvider.anthropicProxy
          (fixtureProfile "a2" "A2" .anthropicCompatible "https://a2.example" true 5 []),
        BaseProvider.standard "claude"]
      (by decide)).2
      [BaseProvider.anthropicProxy
          (fixtureProfile "a1" "A1" .anthropicCompatible "https://a1.example" true 9 []),
        BaseProvider.anthropicProxy
          (fixtureProfile "a2" "A2" .anthropicCompatible "https://a2.example" true 5 [])]
      (BaseProvider.standard "claude") "fail:std" rfl
      (by
        intro q hq
        rcases List.mem_cons.mp hq with rfl | hq
        · exact ⟨_, rfl⟩
        rcases List.mem_cons.mp hq with rfl | hq
        · exact ⟨_, rfl⟩
        cases hq)
      rfl

/-! ## C6 — decoding the literal SSE input -/

set_option maxRecDepth 10000 in
/-- C6: decoding the literal input
`data: {"id":"1","object":"x","created":0,"model":"m","choices":[{"index":0,"delta":{"content":"Hi"},"finish_reason":null}]}\n\ndata: [DONE]\n\n`
yields exactly one assistant text-delta event with text `"Hi"` followed by
exactly one terminal `result` event whose accumulated text is `"Hi"`; the
`[DONE]` sentinel line leaves the state untouched and emits nothing. -/
theorem openaiDecodeStream_literal (sessionId : String) :
    openaiDecodeStream sessionId [c6Input] =
      [PMessage.assistantText sessionId "Hi", PMessage.result sessionId "Hi"] ∧
    ∀ st : DecodeState, processLine sessionId st "data: [DONE]" = (st, []) :=
  ⟨rfl, fun _ => rfl⟩

/-! ## C9 — profile creation -/

/-- The initial value is a lower bound of a `max` fold. -/
theorem le_foldl_max (l : List Int) (x : Int) : x ≤ l.foldl max x := by
  induction l generalizing x with
  | nil => exact le_refl x
  | cons y ys ih => exact le_trans (le_max_left x y) (ih (max x y))

/-- Every member is a lower bound of a `max` fold. -/
theorem mem_le_foldl_max (l : List Int) (x a : Int) (h : a ∈ l) :
    a ≤ l.foldl max x := by
  induction l generalizing x with
  | nil => cases h
  | cons y ys ih =>
      rcases List.mem_cons.mp h with rfl | h
      · exact le_trans (le_max_right x a) (le_foldl_max ys (max x a))
      · exact ih (max x y) h

/-- `Math.max(...priorities)` dominates every stored priority. -/
theorem priority_le_maxExisting (profiles : List ProviderProfile)
    (q : ProviderProfile) (hq : q ∈ profiles) :
    q.priority ≤ maxExistingPriority profiles := by
  unfold maxExistingPriority
  cases hl : profiles.map (fun p => p.priority) with
  | nil =>
      rw [List.map_eq_nil_iff] at hl
      subst hl
      cases hq
  | cons x xs =>
      have hmem : q.priority ∈ x :: xs := hl ▸ List.mem_map_of_mem _ hq
      rcases List.mem_cons.mp hmem with h | h
      · rw [h]
        exact le_foldl_max xs x
      · exact mem_le_foldl_max xs x _ h

/-- C9: `createProfile` validates the base URL before touching the store —
on SSRF rejection it throws (the settings store is never written), and on
success the stored list becomes exactly the old list with one appended
profile carrying the generated id, `isActive` defaulting to `true`,
`timeout` defaulting to 30000 ms and, when `priority` is omitted, a
priority of `max existing + 1`, strictly above every stored profile. -/
theorem createProfile_atomic_append (parse : String → Option URLParts)
    (freshId now : String) (input : CreateProviderProfileInput)
    (profiles : List ProviderProfile) :
    ((validateBaseUrlSsrf parse input.baseUrl (input.allowInternalUrls.getD false)).safe
        = false →
      createProfile parse freshId now input profiles =
        .error ("Invalid base URL: " ++
          ((validateBaseUrlSsrf parse input.baseUrl
            (input.allowInternalUrls.getD false)).reason.getD ""))) ∧
    ((validateBaseUrlSsrf parse input.baseUrl (input.allowInternalUrls.getD false)).safe
        = true →
      ∃ p : ProviderProfile,
        createProfile parse freshId now input profiles = .ok (p, profiles ++ [p]) ∧
        p.id = freshId ∧
        (input.isActive = none → p.isActive = true) ∧
        (input.timeout = none → p.timeout = some 30000) ∧
        (input.priority = none → p.priority = maxExistingPriority profiles + 1) ∧
        (input.priority = none → ∀ q ∈ profiles, q.priority < p.priority)) := by
  constructor
  · intro hs
    simp [createProfile, hs]
  · intro hs
    refine Exists.intro
      { id := freshId, name := input.name, type := input.type,
        baseUrl := input.baseUrl, apiKey := input.apiKey,
        modelMapping := input.modelMapping.getD [],
        isActive := input.isActive.getD true,
        priority := input.priority.getD (maxExistingPriority profiles + 1),
        timeout := some (input.timeout.getD DEFAULT_PROVIDER_TIMEOUT),
        description := input.description, customCaCert := input.customCaCert,
        allowInternalUrls := some (input.allowInternalUrls.getD false),
        rateLimitRpm := some (input.rateLimitRpm.getD 0),
        createdAt := now, updatedAt := now }
      ⟨?_, rfl, ?_, ?_, ?_, ?_⟩
    · simp [createProfile, hs]
    · intro h
      rw [h]
      rfl
    · intro h
      rw [h]
      rfl
    · intro h
      rw [h]
      rfl
    · intro h q hq
      rw [h]
      have := priority_le_maxExisting profiles q hq
      simp only [Option.getD]
      omega

/-- C9 witness: creating a profile with a safe URL against a store holding
one priority-5 profile appends a profile with priority 6, active, with the
default 30-second timeout. -/
theorem createProfile_atomic_append_witness :
    ∃ p : ProviderProfile,
      createProfile (fun _ => some ⟨"https:", "proxy.example"⟩) "id-new" "t1"
          { name := "N", type := .anthropicCompatible,
            baseUrl := "https://proxy.example", apiKey := "k" }
          [fixtureProfile "p0" "P0" .anthropicCompatible "https://p0.example" true 5 []] =
        .ok (p,
          [fixtureProfile "p0" "P0" .anthropicCompatible "https://p0.example" true 5 []]
            ++ [p]) ∧
      p.id = "id-new" ∧ p.isActive = true ∧ p.timeout = some 30000 ∧ p.priority = 6 := by
  obtain ⟨p, h1, h2, h3, h4, h5, -⟩ :=
    (createProfile_atomic_append (fun _ => some ⟨"https:", "proxy.example"⟩)
      "id-new" "t1"
      { name := "N", type := .anthropicCompatible,
        baseUrl := "https://proxy.example", apiKey := "k" }
      [fixtureProfile "p0" "P0" .anthropicCompatible "https://p0.example" true 5 []]).2
      (by decide)
  exact ⟨p, h1, h2, h3 rfl, h4 rfl, by rw [h5 rfl]; rfl⟩

/-! ## C10 — profile update -/

/-- The two error messages of `updateProfile` can never collide: they start
with different characters. -/
theorem invalid_ne_notFound (a b : String) :
    "Invalid base URL: " ++ a ≠ "Provider profile not found: " ++ b := by
  intro h
  have h' : ("Invalid base URL: " ++ a).data.head? =
      ("Provider profile not found: " ++ b).data.head? :=
    congrArg (fun s => s.data.head?) h
  have h1 : ("Invalid base URL: " ++ a).data.head? = some 'I' := rfl
  have h2 : ("Provider profile not found: " ++ b).data.head? = some 'P' := rfl
  rw [h1, h2] at h'
  exact absurd (Option.some.inj h') (by decide)

/-- C10 (amended): `updateProfile` throws its not-found error — leaving the
store unwritten — exactly when no stored profile carries the given id; when
the profile exists, the SSRF-validation branch runs if and only if the
update supplies a *non-empty* `baseUrl` different from the stored one
(JavaScript truthiness: an empty-string `baseUrl` skips validation even
though it differs), and an update omitting `baseUrl` or re-submitting the
stored value always succeeds without any SSRF check — even one that
simultaneously sets `allowInternalUrls` to `false` over an internal stored
address. -/
theorem updateProfile_validation (parse : String → Option URLParts)
    (now : String) (input : UpdateProviderProfileInput)
    (profiles : List ProviderProfile) :
    ((updateProfile parse now input profiles).result =
        .error ("Provider profile not found: " ++ input.id) ↔
      profiles.find? (fun p => p.id == input.id) = none) ∧
    (∀ existing, profiles.find? (fun p => p.id == input.id) = some existing →
      ((updateProfile parse now input profiles).ssrfChecked =
        updateNeedsSsrfCheck input existing) ∧
      ((input.baseUrl = none ∨ input.baseUrl = some existing.baseUrl) →
        (updateProfile parse now input profiles).ssrfChecked = false ∧
        ∃ pr, (updateProfile parse now input profiles).result = .ok pr)) := by
  cases hfind : profiles.find? (fun p => p.id == input.id) with
  | none =>
      refine ⟨?_, ?_⟩
      · simp [updateProfile, hfind]
      · intro existing hex
        exact Option.noConfusion hex
  | some existing0 =>
      refine ⟨?_, ?_⟩
      · constructor
        · intro h
          exfalso
          simp only [updateProfile, hfind] at h
          by_cases hc : updateNeedsSsrfCheck input existing0
          · rw [if_pos hc] at h
            by_cases hsafe : (validateBaseUrlSsrf parse (input.baseUrl.getD "")
                (input.allowInternalUrls.getD
                  (existing0.allowInternalUrls.getD false))).safe
            · rw [if_neg (by simp [hsafe])] at h
              cases h
            · rw [if_pos (by simp [hsafe])] at h
              exact invalid_ne_notFound _ _ (Except.error.inj h)
          · rw [if_neg hc] at h
            cases h
        · intro h
          cases h
      · intro existing hex
        obtain rfl := (Option.some.inj hex).symm
        constructor
        · simp only [updateProfile, hfind]
          by_cases hc : updateNeedsSsrfCheck input existing
          · rw [if_pos hc]
            by_cases hsafe : (validateBaseUrlSsrf parse (input.baseUrl.getD "")
                (input.allowInternalUrls.getD
                  (existing.allowInternalUrls.getD false))).safe
            · rw [if_neg (by simp [hsafe])]
              simp [hc]
            · rw [if_pos (by simp [hsafe])]
              simp [hc]
          · rw [if_neg hc]
            simp [Bool.not_eq_true] at hc
            simp [hc]
        · intro hb
          have hc : updateNeedsSsrfCheck input existing = false := by
            unfold updateNeedsSsrfCheck
            rcases hb with h | h
            · rw [h]
            · rw [h]
              simp
          simp only [updateProfile, hfind, hc]
          exact ⟨rfl, ⟨_, rfl⟩⟩

/-- C10, counterexample to the "iff" as stated: updating the stored profile
with the supplied `baseUrl` `""` — which *differs* from the stored
`"http://internal.host"` — does not run SSRF validation (empty string is
falsy), and the update succeeds even under a URL parser that rejects every
input, overwriting the stored `baseUrl` with `""`. -/
theorem updateProfile_empty_baseUrl_counterexample :
    (some "" ≠ (none : Option String) ∧
      "" ≠ (fixtureProfile "p1" "P" .anthropicCompatible "http://internal.host"
        true 1 []).baseUrl) ∧
    (updateProfile (fun _ => none) "t1" { id := "p1", baseUrl := some "" }
      [fixtureProfile "p1" "P" .anthropicCompatible "http://internal.host"
        true 1 []]).ssrfChecked = false ∧
    (updateProfile (fun _ => none) "t1" { id := "p1", baseUrl := some "" }
        [fixtureProfile "p1" "P" .anthropicCompatible "http://internal.host"
          true 1 []]).result =
      .ok ({ fixtureProfile "p1" "P" .anthropicCompatible "http://internal.host"
            true 1 [] with baseUrl := "", updatedAt := "t1" },
        [{ fixtureProfile "p1" "P" .anthropicCompatible "http://internal.host"
            true 1 [] with baseUrl := "", updatedAt := "t1" }]) := by
  refine ⟨⟨?_, ?_⟩, ?_, ?_⟩ <;> first | decide | rfl

/-- C10 witness: the amended theorem applied to a concrete store — a
missing id yields the not-found error, and an update re-submitting the
stored `baseUrl` while switching `allowInternalUrls` off succeeds with no
SSRF check although the stored address is internal. -/
theorem updateProfile_validation_witness :
    (updateProfile (fun _ => none) "t1" { id := "zz" }
        [fixtureProfile "p1" "P" .anthropicCompatible "http://internal.host"
          true 1 []]).result =
      .error ("Provider profile not found: " ++ "zz") ∧
    ((updateProfile (fun _ => none) "t1"
        { id := "p1", baseUrl := some "http://internal.host",
          allowInternalUrls := some false }
        [fixtureProfile "p1" "P" .anthropicCompatible "http://internal.host"
          true 1 []]).ssrfChecked = false ∧
      ∃ pr, (updateProfile (fun _ => none) "t1"
          { id := "p1", baseUrl := some "http://internal.host",
            allowInternalUrls := some false }
          [fixtureProfile "p1" "P" .anthropicCompatible "http://internal.host"
            true 1 []]).result = .ok pr) :=
  ⟨(updateProfile_validation (fun _ => none) "t1" { id := "zz" }
      [fixtureProfile "p1" "P" .anthropicCompatible "http://internal.host"
        true 1 []]).1.mpr (by decide),
    ((updateProfile_validation (fun _ => none) "t1"
        { id := "p1", baseUrl := some "http://internal.host",
          allowInternalUrls := some false }
        [fixtureProfile "p1" "P" .anthropicCompatible "http://internal.host"
          true 1 []]).2
      (fixtureProfile "p1" "P" .anthropicCompatible "http://internal.host"
        true 1 []) (by decide)).2 (Or.inr rfl)⟩
